import Mathlib

/-!
# File system layer `fs.c`: superblock mount, inode table, offset translation

A shallow embedding of `fs.c` and proofs about it.  The functions of `fs.c` are
translated one by one; the C globals (`rootSB` of `fs.c`, the open device of the disk
layer) become an explicit state that every function receives and returns.  Output sent
to `stdout` by `printf` is not part of the state.

Conventions of the embedding:
* C `int` values are `Int`; unsigned fields (`uint16_t`, `uint32_t`) are `Nat`, with the
  range of the C type stated by `fs_sblock.valid`, `fs_inode.valid` where a theorem needs it;
* a block is its 2048 bytes; the views of `union fs_block` read and write those bytes with
  the layout of the structs (little-endian, no padding between the fields).
-/

namespace FS

/-! ## Constants -/

/-- Modelled from the spec: `DISK_BLOCK_SIZE` is declared in `disk.h`, outside `fs.c`
(the block device is an external collaborator with a fixed block size); the layout comment
of `fs.c` gives the value: "FS block size = disk block size (2K)". -/
def DISK_BLOCK_SIZE : Nat := 2048

/-- The macro `BLOCKSZ`. -/
def BLOCKSZ : Nat := DISK_BLOCK_SIZE

/-- The macro `SBLOCK`: the superblock is in disk block 0. -/
def SBLOCK : Nat := 0

/-- The macro `FS_MAGIC`. -/
def FS_MAGIC : Nat := 0xf50f5024

/-- The macro `DIRBLOCK_PER_INODE`: direct block indexes per inode. -/
def DIRBLOCK_PER_INODE : Nat := 11

/-- The macro `INODESZ`, that is `sizeof(struct fs_inode)`: 2 + 2 + 4 + 11 * 2 + 2 bytes. -/
def INODESZ : Nat := 2 + 2 + 4 + DIRBLOCK_PER_INODE * 2 + 2

/-- The macro `INODES_PER_BLOCK`. -/
def INODES_PER_BLOCK : Nat := BLOCKSZ / INODESZ

/-- The macro `FREE`. -/
def FREE : Nat := 0

/-- Largest value of a C `int`. -/
def INT_MAX : Int := 2147483647

/-- Smallest value of a C `int`. -/
def INT_MIN : Int := -2147483648

/-- The value is one of a C `int`. -/
def isInt (x : Int) : Prop := INT_MIN ≤ x ∧ x ≤ INT_MAX

instance (x : Int) : Decidable (isInt x) := by
  unfold isInt; infer_instance

/-- The conversion `(unsigned)x` of a C `int`. -/
def toUnsigned (x : Int) : Nat := (x % 4294967296).toNat

/-! ## Blocks as bytes -/

/-- One byte of a block. -/
abbrev Byte := Fin 256

/-- The bytes `char data[BLOCKSZ]` of a block, by byte offset; the functions of `fs.c` read
and write offsets below `BLOCKSZ` only. -/
abbrev Block := Nat → Byte

/-- Byte number `k` (0 is the least significant) of the value `v`. -/
def byteOf (v k : Nat) : Byte := ⟨v / 256 ^ k % 256, Nat.mod_lt _ (by decide)⟩

/-- The `uint16_t` stored at byte offset `i` of a block. -/
def rd16 (b : Block) (i : Nat) : Nat := (b i).val + 256 * (b (i + 1)).val

/-- The `uint32_t` stored at byte offset `i` of a block. -/
def rd32 (b : Block) (i : Nat) : Nat := rd16 b i + 65536 * rd16 b (i + 2)

/-- The view `uint16_t data[BLOCKSZ / 2]` of a block: slot `k`. -/
def data16 (b : Block) (k : Nat) : Nat := rd16 b (2 * k)

/-! ## The structs -/

/-- The struct `fs_sblock`: super block with file system parameters. -/
structure fs_sblock where
  magic : Nat
  block_cnt : Nat
  bmap_size : Nat
  first_inodeblk : Nat
  inode_cnt : Nat
  inode_blocks : Nat
  first_datablk : Nat
deriving DecidableEq

/-- The struct `fs_inode`: inode describing a file or directory. -/
structure fs_inode where
  type : Nat
  nlinks : Nat
  size : Nat
  dir_block : Fin 11 → Nat
  indir_block : Nat

/-- The fields of a superblock are in the ranges of their C types. -/
def fs_sblock.valid (sb : fs_sblock) : Prop :=
  sb.magic < 4294967296 ∧ sb.block_cnt < 4294967296 ∧ sb.bmap_size < 65536 ∧
    sb.first_inodeblk < 65536 ∧ sb.inode_cnt < 65536 ∧ sb.inode_blocks < 65536 ∧
    sb.first_datablk < 65536

instance (sb : fs_sblock) : Decidable sb.valid := by
  unfold fs_sblock.valid; infer_instance

/-- The fields of an inode are in the ranges of their C types. -/
def fs_inode.valid (x : fs_inode) : Prop :=
  x.type < 65536 ∧ x.nlinks < 65536 ∧ x.size < 4294967296 ∧
    (∀ i : Fin 11, x.dir_block i < 65536) ∧ x.indir_block < 65536

instance (x : fs_inode) : Decidable x.valid := by
  unfold fs_inode.valid; infer_instance

/-- The read `inode->dir_block[i]`.  An index outside the array is not a defined read in C;
the embedding yields 0 there (the theorems below only read inside the array). -/
def fs_inode.dir (x : fs_inode) (i : Nat) : Nat :=
  if h : i < 11 then x.dir_block ⟨i, h⟩ else 0

/-- Byte `r` of the 32 bytes that represent an inode in memory. -/
def inode_byte (x : fs_inode) (r : Nat) : Byte :=
  if r < 2 then byteOf x.type r
  else if r < 4 then byteOf x.nlinks (r - 2)
  else if r < 8 then byteOf x.size (r - 4)
  else if r < 30 then byteOf (x.dir ((r - 8) / 2)) ((r - 8) % 2)
  else byteOf x.indir_block (r - 30)

/-- The view `block.super` of `union fs_block`. -/
def fs_block.super (b : Block) : fs_sblock where
  magic := rd32 b 0
  block_cnt := rd32 b 4
  bmap_size := rd16 b 8
  first_inodeblk := rd16 b 10
  inode_cnt := rd16 b 12
  inode_blocks := rd16 b 14
  first_datablk := rd16 b 16

/-- The read `block.inode[k]` through the view `struct fs_inode inode[INODES_PER_BLOCK]`. -/
def fs_block.inode (b : Block) (k : Nat) : fs_inode where
  type := rd16 b (INODESZ * k)
  nlinks := rd16 b (INODESZ * k + 2)
  size := rd32 b (INODESZ * k + 4)
  dir_block := fun i => rd16 b (INODESZ * k + 8 + 2 * i.val)
  indir_block := rd16 b (INODESZ * k + 30)

/-- The assignment `block.inode[k] = x`: the 32 bytes of slot `k` are overwritten. -/
def fs_block.set_inode (b : Block) (k : Nat) (x : fs_inode) : Block :=
  fun j => if INODESZ * k ≤ j ∧ j < INODESZ * k + INODESZ then inode_byte x (j - INODESZ * k)
    else b j

/-! ## The block device -/

/-- Modelled from the spec: a call received by the block device layer (`disk.h` and its
implementation are external to `fs.c`). -/
inductive DiskCall where
  | init (device : String) (size : Int)
  | read (blocknum : Nat)
  | write (blocknum : Nat)
deriving DecidableEq

/-- Modelled from the spec: the block device, "a flat array of fixed-size blocks" with
zero-based dense numbering: the content of every block, and the calls received so far. -/
structure Disk where
  blocks : Nat → Block
  calls : List DiskCall

/-- Modelled from the spec: what backing storage `disk_init` finds or creates for a device
name and size; `none` when it cannot be opened. -/
abbrev Backing := String → Int → Option (Nat → Block)

/-- Modelled from the spec: `disk_init`, open or create of the backing storage; a negative
result is a failure. -/
def disk_init (env : Backing) (d : Disk) (device : String) (size : Int) : Int × Disk :=
  match env device size with
  | none => (-1, { d with calls := d.calls ++ [DiskCall.init device size] })
  | some img => (0, { blocks := img, calls := d.calls ++ [DiskCall.init device size] })

/-- Modelled from the spec: `disk_read`, "read(blockNum) -> bytes". -/
def disk_read (d : Disk) (blocknum : Nat) : Block × Disk :=
  (d.blocks blocknum, { d with calls := d.calls ++ [DiskCall.read blocknum] })

/-- Modelled from the spec: `disk_write`, "write(blockNum, bytes)"; `fs.c` uses it as a
statement, so no result is modelled. -/
def disk_write (d : Disk) (blocknum : Nat) (data : Block) : Disk :=
  { blocks := fun b => if b = blocknum then data else d.blocks b,
    calls := d.calls ++ [DiskCall.write blocknum] }

/-! ## The functions of `fs.c` -/

/-- The globals: `rootSB` of `fs.c` and the state of the block device. -/
structure FsState where
  rootSB : fs_sblock
  disk : Disk

/-- The function `check_rootSB`. -/
def check_rootSB (s : FsState) : Int :=
  if s.rootSB.magic ≠ FS_MAGIC then -1 else 0

/-- The function `offset2block`.  The inode is only read through the pointer, so it is a
value here; the device state is returned.  The division is the truncating division of C.
For `offset <= -BLOCKSZ` the C code indexes `dir_block` below 0, which is not a defined
read; see `fs_inode.dir`. -/
def offset2block (d : Disk) (inode : fs_inode) (offset : Int) : Int × Disk :=
  let block : Int := Int.tdiv offset BLOCKSZ
  if block < DIRBLOCK_PER_INODE then
    ((inode.dir block.toNat : Nat), d)
  else if block < DIRBLOCK_PER_INODE + ((BLOCKSZ / 2 : Nat) : Int) then
    let r := disk_read d inode.indir_block
    ((data16 r.1 (block - DIRBLOCK_PER_INODE).toNat : Nat), r.2)
  else
    (-1, d)

/-- The function `inode_load`; `ino` is the record behind the pointer before the call, the
second component of the result is the record after it.  The comparison is the unsigned one
of C; `/` and `%` are the truncating ones of C. -/
def inode_load (s : FsState) (ino_number : Int) (ino : fs_inode) : Int × fs_inode × FsState :=
  if toUnsigned ino_number > s.rootSB.inode_cnt * INODES_PER_BLOCK then
    (-1, { ino with type := FREE }, s)
  else
    let inodeBlock : Int := s.rootSB.first_inodeblk + Int.tdiv ino_number INODES_PER_BLOCK
    let r := disk_read s.disk inodeBlock.toNat
    (0, fs_block.inode r.1 (Int.tmod ino_number INODES_PER_BLOCK).toNat, { s with disk := r.2 })

/-- The function `inode_save`. -/
def inode_save (s : FsState) (ino_number : Int) (ino : fs_inode) : Int × FsState :=
  if toUnsigned ino_number > s.rootSB.inode_cnt * INODES_PER_BLOCK then
    (-1, s)
  else
    let inodeBlock : Int := s.rootSB.first_inodeblk + Int.tdiv ino_number INODES_PER_BLOCK
    let r := disk_read s.disk inodeBlock.toNat
    let block := fs_block.set_inode r.1 (Int.tmod ino_number INODES_PER_BLOCK).toNat ino
    (0, { s with disk := disk_write r.2 inodeBlock.toNat block })

/-- The function `fs_mount`. -/
def fs_mount (env : Backing) (s : FsState) (device : String) (size : Int) : Int × FsState :=
  if s.rootSB.magic = FS_MAGIC then
    (-1, s)
  else
    let i := disk_init env s.disk device size
    if i.1 < 0 then
      (-1, { s with disk := i.2 })
    else
      let r := disk_read i.2 SBLOCK
      if (fs_block.super r.1).magic ≠ FS_MAGIC then
        (0, { s with disk := r.2 })
      else
        (0, { rootSB := fs_block.super r.1, disk := r.2 })

/-! ## Reference translation -/

/-- The two-case translation in the words of the specification: with
`logicalBlock = offset / BLOCKSZ`, the direct block number `dir_block[logicalBlock]` when
`logicalBlock < 11`, and otherwise the two-byte slot `logicalBlock - 11` of the disk block
whose number is `indir_block`. -/
def translate_ref (blocks : Nat → Block) (inode : fs_inode) (offset : Nat) : Nat :=
  let logicalBlock := offset / BLOCKSZ
  if h : logicalBlock < 11 then inode.dir_block ⟨logicalBlock, h⟩
  else data16 (blocks inode.indir_block) (logicalBlock - 11)

/-! ## Sample inputs -/

/-- A block of zero bytes. -/
def zeroBlock : Block := fun _ => 0

/-- Block 0 of a formatted 640-block volume: magic, 640 blocks, 1 bitmap block, inodes from
block 2, 64 inodes in 1 block, data from block 3. -/
def sampleSBBlock : Block := fun j =>
  if j = 0 then 0x24 else if j = 1 then 0x50 else if j = 2 then 0x0f else if j = 3 then 0xf5
  else if j = 4 then 0x80 else if j = 5 then 0x02
  else if j = 8 then 1 else if j = 10 then 2 else if j = 12 then 64 else if j = 14 then 1
  else if j = 16 then 3 else 0

/-- The blocks of a formatted 640-block volume with an empty inode table. -/
def sampleImage : Nat → Block := fun b => if b = 0 then sampleSBBlock else zeroBlock

/-- The superblock of `sampleImage`. -/
def sampleSB : fs_sblock :=
  { magic := FS_MAGIC, block_cnt := 640, bmap_size := 1, first_inodeblk := 2,
    inode_cnt := 64, inode_blocks := 1, first_datablk := 3 }

/-- The state after mounting `sampleImage`. -/
def sampleMounted : FsState :=
  { rootSB := sampleSB, disk := { blocks := sampleImage, calls := [] } }

/-- The state before any mount: `rootSB` is zero, the device holds a blank image. -/
def sampleUnmounted : FsState :=
  { rootSB := { magic := 0, block_cnt := 0, bmap_size := 0, first_inodeblk := 0,
                inode_cnt := 0, inode_blocks := 0, first_datablk := 0 },
    disk := { blocks := fun _ => zeroBlock, calls := [] } }

/-- A regular file of 5000 bytes with three direct blocks. -/
def sampleInode : fs_inode :=
  { type := 8, nlinks := 1, size := 5000,
    dir_block := fun i => if i.val < 3 then 3 + i.val else 0, indir_block := 0 }

/-- A device layer that opens `sampleImage` for every name and size. -/
def sampleBacking : Backing := fun _ _ => some sampleImage

/-- A device layer that creates a blank image for every name and size. -/
def blankBacking : Backing := fun _ _ => some (fun _ => zeroBlock)

/-! ## Arithmetic of the machine integers -/

theorem rd16_lt (b : Block) (i : Nat) : rd16 b i < 65536 := by
  unfold rd16
  have h1 := (b i).isLt
  have h2 := (b (i + 1)).isLt
  omega

theorem rd32_lt (b : Block) (i : Nat) : rd32 b i < 4294967296 := by
  unfold rd32
  have h1 := rd16_lt b i
  have h2 := rd16_lt b (i + 2)
  omega

/-- A superblock read from a block has its fields in the ranges of their C types. -/
theorem super_valid (b : Block) : (fs_block.super b).valid := by
  unfold fs_sblock.valid fs_block.super
  exact ⟨rd32_lt b 0, rd32_lt b 4, rd16_lt b 8, rd16_lt b 10, rd16_lt b 12, rd16_lt b 14,
    rd16_lt b 16⟩

/-- An inode read from a block has its fields in the ranges of their C types. -/
theorem inode_valid (b : Block) (k : Nat) : (fs_block.inode b k).valid := by
  unfold fs_inode.valid fs_block.inode
  exact ⟨rd16_lt b _, rd16_lt b _, rd32_lt b _, fun i => rd16_lt b _, rd16_lt b _⟩

theorem inodes_per_block_eq : INODES_PER_BLOCK = 64 := by decide

theorem inodesz_eq : INODESZ = 32 := by decide

theorem blocksz_eq : BLOCKSZ = 2048 := by decide

/-- An accepted inode number of a well-typed call is a natural number within the bound of
the range check. -/
theorem accepted_ofNat (sb : fs_sblock) (n : Int) (hs : sb.valid) (hn : isInt n)
    (h : ¬ toUnsigned n > sb.inode_cnt * INODES_PER_BLOCK) :
    ∃ m : Nat, n = (m : Int) ∧ m ≤ sb.inode_cnt * INODES_PER_BLOCK := by
  obtain ⟨_, _, _, _, hc, _, _⟩ := hs
  obtain ⟨h1, h2⟩ := hn
  rw [inodes_per_block_eq] at h ⊢
  unfold toUnsigned at h
  unfold INT_MIN at h1
  unfold INT_MAX at h2
  refine ⟨n.toNat, ?_, ?_⟩ <;> omega

theorem tdiv_ipb (m : Nat) :
    (Int.tdiv (m : Int) (INODES_PER_BLOCK : Int)) = ((m / INODES_PER_BLOCK : Nat) : Int) := rfl

theorem tmod_ipb (m : Nat) :
    (Int.tmod (m : Int) (INODES_PER_BLOCK : Int)) = ((m % INODES_PER_BLOCK : Nat) : Int) := rfl

/-! ## The range check of `inode_load` and `inode_save` -/

theorem inode_save_rejects (s : FsState) (n : Int) (x : fs_inode)
    (h : toUnsigned n > s.rootSB.inode_cnt * INODES_PER_BLOCK) :
    inode_save s n x = (-1, s) := by
  unfold inode_save
  rw [if_pos h]

theorem inode_load_rejects (s : FsState) (n : Int) (ino : fs_inode)
    (h : toUnsigned n > s.rootSB.inode_cnt * INODES_PER_BLOCK) :
    inode_load s n ino = (-1, { ino with type := FREE }, s) := by
  unfold inode_load
  rw [if_pos h]

theorem inode_save_accepts (s : FsState) (m : Nat) (x : fs_inode)
    (h : ¬ toUnsigned (m : Int) > s.rootSB.inode_cnt * INODES_PER_BLOCK) :
    inode_save s (m : Int) x =
      (0, ⟨s.rootSB, disk_write (disk_read s.disk
              (s.rootSB.first_inodeblk + m / INODES_PER_BLOCK)).2
              (s.rootSB.first_inodeblk + m / INODES_PER_BLOCK)
              (fs_block.set_inode (s.disk.blocks (s.rootSB.first_inodeblk + m / INODES_PER_BLOCK))
                (m % INODES_PER_BLOCK) x)⟩) := by
  unfold inode_save
  rw [if_neg h, tdiv_ipb, tmod_ipb]
  have e1 : ((s.rootSB.first_inodeblk : Int) + ((m / INODES_PER_BLOCK : Nat) : Int)).toNat
      = s.rootSB.first_inodeblk + m / INODES_PER_BLOCK := by
    rw [← Int.ofNat_add]; exact Int.toNat_ofNat _
  have e2 : (((m % INODES_PER_BLOCK : Nat) : Int)).toNat = m % INODES_PER_BLOCK :=
    Int.toNat_ofNat _
  simp only [e1, e2, disk_read]

theorem inode_load_accepts (s : FsState) (m : Nat) (ino : fs_inode)
    (h : ¬ toUnsigned (m : Int) > s.rootSB.inode_cnt * INODES_PER_BLOCK) :
    inode_load s (m : Int) ino =
      (0, fs_block.inode (s.disk.blocks (s.rootSB.first_inodeblk + m / INODES_PER_BLOCK))
            (m % INODES_PER_BLOCK),
        ⟨s.rootSB, (disk_read s.disk (s.rootSB.first_inodeblk + m / INODES_PER_BLOCK)).2⟩) := by
  unfold inode_load
  rw [if_neg h, tdiv_ipb, tmod_ipb]
  have e1 : ((s.rootSB.first_inodeblk : Int) + ((m / INODES_PER_BLOCK : Nat) : Int)).toNat
      = s.rootSB.first_inodeblk + m / INODES_PER_BLOCK := by
    rw [← Int.ofNat_add]; exact Int.toNat_ofNat _
  have e2 : (((m % INODES_PER_BLOCK : Nat) : Int)).toNat = m % INODES_PER_BLOCK :=
    Int.toNat_ofNat _
  simp only [e1, e2, disk_read]

theorem inode_save_ret (s : FsState) (n : Int) (x : fs_inode) :
    ((inode_save s n x).1 = 0 ↔ ¬ toUnsigned n > s.rootSB.inode_cnt * INODES_PER_BLOCK) ∧
    ((inode_save s n x).1 = -1 ↔ toUnsigned n > s.rootSB.inode_cnt * INODES_PER_BLOCK) := by
  unfold inode_save
  by_cases h : toUnsigned n > s.rootSB.inode_cnt * INODES_PER_BLOCK
  · simp [h]
  · simp [h]

theorem inode_load_ret (s : FsState) (n : Int) (ino : fs_inode) :
    ((inode_load s n ino).1 = 0 ↔ ¬ toUnsigned n > s.rootSB.inode_cnt * INODES_PER_BLOCK) ∧
    ((inode_load s n ino).1 = -1 ↔ toUnsigned n > s.rootSB.inode_cnt * INODES_PER_BLOCK) := by
  unfold inode_load
  by_cases h : toUnsigned n > s.rootSB.inode_cnt * INODES_PER_BLOCK
  · simp [h]
  · simp [h]

theorem inode_save_rootSB (s : FsState) (n : Int) (x : fs_inode) :
    (inode_save s n x).2.rootSB = s.rootSB := by
  unfold inode_save
  split <;> rfl

theorem inode_save_blocks (s : FsState) (m : Nat) (x : fs_inode)
    (h : ¬ toUnsigned (m : Int) > s.rootSB.inode_cnt * INODES_PER_BLOCK) (b : Nat) :
    (inode_save s (m : Int) x).2.disk.blocks b =
      if b = s.rootSB.first_inodeblk + m / INODES_PER_BLOCK then
        fs_block.set_inode (s.disk.blocks (s.rootSB.first_inodeblk + m / INODES_PER_BLOCK))
          (m % INODES_PER_BLOCK) x
      else s.disk.blocks b := by
  rw [inode_save_accepts s m x h]
  simp only [disk_write, disk_read]

/-! ## Bytes of an inode slot -/

theorem set_inode_outside (b : Block) (k : Nat) (x : fs_inode) (j : Nat)
    (h : j < INODESZ * k ∨ INODESZ * k + INODESZ ≤ j) :
    fs_block.set_inode b k x j = b j := by
  unfold fs_block.set_inode
  rw [if_neg]
  omega

theorem rd16_set_inode_outside (b : Block) (k : Nat) (x : fs_inode) (i : Nat)
    (h : i + 1 < INODESZ * k ∨ INODESZ * k + INODESZ ≤ i) :
    rd16 (fs_block.set_inode b k x) i = rd16 b i := by
  unfold rd16
  rw [set_inode_outside b k x i (by omega), set_inode_outside b k x (i + 1) (by omega)]

/-- Assigning a slot leaves the records of the other slots of the block as they were. -/
theorem inode_set_inode_other (b : Block) (k j : Nat) (x : fs_inode) (h : j ≠ k) :
    fs_block.inode (fs_block.set_inode b k x) j = fs_block.inode b j := by
  have hjk : INODESZ * j + INODESZ ≤ INODESZ * k ∨ INODESZ * k + INODESZ ≤ INODESZ * j := by
    rw [inodesz_eq]; omega
  have r16 : ∀ c, c + 1 < INODESZ →
      rd16 (fs_block.set_inode b k x) (INODESZ * j + c) = rd16 b (INODESZ * j + c) := by
    intro c hc
    apply rd16_set_inode_outside
    omega
  unfold fs_block.inode
  have t := r16 0 (by decide)
  rw [Nat.add_zero] at t
  have e4 := r16 4 (by decide)
  have e6 := r16 6 (by decide)
  have d : ∀ i : Fin 11, rd16 (fs_block.set_inode b k x) (INODESZ * j + 8 + 2 * i.val)
      = rd16 b (INODESZ * j + 8 + 2 * i.val) := by
    intro i
    have hi := i.isLt
    rw [Nat.add_assoc]
    exact r16 (8 + 2 * i.val) (by rw [inodesz_eq]; omega)
  simp only [rd32, Nat.add_assoc] at e6 ⊢
  simp only [Nat.add_assoc] at d
  simp only [t, r16 2 (by decide), e4, e6, d, r16 30 (by decide)]

/-! ## Claims about `inode_load` and `inode_save` -/

/-- C1 (range check of the inode table): on the superblock of a formatted 640-block volume,
which has 64 inodes, inode number 64 is not below `inode_cnt`, and yet `inode_load` and
`inode_save` both return 0 for it; the check of `fs.c` compares with
`inode_cnt * INODES_PER_BLOCK` and uses `>`. -/
theorem inode_range_check_accepts_inode_cnt :
    sampleMounted.rootSB.inode_cnt ≤ toUnsigned 64 ∧
    (inode_load sampleMounted 64 sampleInode).1 = 0 ∧
    (inode_save sampleMounted 64 sampleInode).1 = 0 := by
  decide

/-- C6 (frame of `inode_save`): for a well-typed mounted superblock and inode number `n`,
when `inode_save` accepts `n` every disk block other than block
`first_inodeblk + n / INODES_PER_BLOCK` is unchanged and `inode_load` of every other
accepted inode number `m` returns the record it returned before the save; when `inode_save`
rejects `n` the state, and so the disk, is unchanged. -/
theorem inode_save_frame (s : FsState) (n : Int) (x : fs_inode)
    (hs : s.rootSB.valid) (hn : isInt n) :
    ((inode_save s n x).1 = 0 →
      (∀ b : Nat, b ≠ s.rootSB.first_inodeblk + n.toNat / INODES_PER_BLOCK →
        (inode_save s n x).2.disk.blocks b = s.disk.blocks b) ∧
      (∀ (m : Int) (ino : fs_inode), isInt m → m ≠ n → (inode_load s m ino).1 = 0 →
        (inode_load (inode_save s n x).2 m ino).1 = 0 ∧
        (inode_load (inode_save s n x).2 m ino).2.1 = (inode_load s m ino).2.1)) ∧
    ((inode_save s n x).1 = -1 →
      (inode_save s n x).2 = s ∧ (inode_save s n x).2.disk.blocks = s.disk.blocks) := by
  constructor
  · intro hacc
    have hchk := (inode_save_ret s n x).1.1 hacc
    obtain ⟨k, rfl, _⟩ := accepted_ofNat s.rootSB n hs hn hchk
    rw [Int.toNat_ofNat]
    constructor
    · intro b hb
      rw [inode_save_blocks s k x hchk, if_neg hb]
    · intro m ino hm hmn hmacc
      have hmchk := (inode_load_ret s m ino).1.1 hmacc
      obtain ⟨j, rfl, _⟩ := accepted_ofNat s.rootSB m hs hm hmchk
      have hjk : j ≠ k := fun e => hmn (by rw [e])
      have hmchk2 : ¬ toUnsigned (j : Int) >
          (inode_save s k x).2.rootSB.inode_cnt * INODES_PER_BLOCK := by
        rw [inode_save_rootSB]; exact hmchk
      rw [inode_load_accepts _ j ino hmchk2, inode_load_accepts s j ino hmchk]
      refine ⟨rfl, ?_⟩
      simp only [inode_save_rootSB, inode_save_blocks s k x hchk]
      by_cases hb : s.rootSB.first_inodeblk + j / INODES_PER_BLOCK
          = s.rootSB.first_inodeblk + k / INODES_PER_BLOCK
      · rw [if_pos hb, hb]
        apply inode_set_inode_other
        rw [inodes_per_block_eq] at hb ⊢
        omega
      · rw [if_neg hb]
  · intro hrej
    have hchk := (inode_save_ret s n x).2.1 hrej
    rw [inode_save_rejects s n x hchk]
    exact ⟨rfl, rfl⟩

/-- Witness of C6: saving inode 5 of the sample volume; inode 6 shares its block. -/
theorem inode_save_frame_witness :
    sampleMounted.rootSB.valid ∧ isInt 5 ∧
    (inode_save sampleMounted 5 sampleInode).1 = 0 ∧
    (inode_load sampleMounted 6 sampleInode).1 = 0 ∧
    (inode_save sampleMounted 5 sampleInode).2.disk.blocks 3 = sampleMounted.disk.blocks 3 ∧
    (inode_load (inode_save sampleMounted 5 sampleInode).2 6 sampleInode).2.1
      = (inode_load sampleMounted 6 sampleInode).2.1 :=
  ⟨by decide, by decide, by decide, by decide,
    ((inode_save_frame sampleMounted 5 sampleInode (by decide) (by decide)).1 (by decide)).1
      3 (by decide),
    (((inode_save_frame sampleMounted 5 sampleInode (by decide) (by decide)).1 (by decide)).2
      6 sampleInode (by decide) (by decide) (by decide)).2⟩

/-- C9 (inode accesses and the inode table): the superblock of a formatted 640-block volume
has `inode_blocks * INODES_PER_BLOCK >= inode_cnt`; inode number 64 is accepted by
`inode_load` and `inode_save`, and the block they read and write is block 3, which is
outside the inode region (block 2 alone) and is the first data block. -/
theorem inode_access_leaves_inode_region :
    sampleSB.inode_blocks * INODES_PER_BLOCK ≥ sampleSB.inode_cnt ∧
    (inode_load sampleMounted 64 sampleInode).1 = 0 ∧
    (inode_load sampleMounted 64 sampleInode).2.2.disk.calls = [DiskCall.read 3] ∧
    (inode_save sampleMounted 64 sampleInode).1 = 0 ∧
    (inode_save sampleMounted 64 sampleInode).2.disk.calls
      = [DiskCall.read 3, DiskCall.write 3] ∧
    ¬ (3 < sampleSB.first_inodeblk + sampleSB.inode_blocks) ∧
    sampleSB.first_datablk = 3 := by
  decide

/-! ## Offset translation -/

/-- The function `offset2block` at an offset that is not negative, in natural numbers. -/
theorem offset2block_ofNat (d : Disk) (inode : fs_inode) (m : Nat) :
    offset2block d inode (m : Int) =
      if m / BLOCKSZ < DIRBLOCK_PER_INODE then
        (((inode.dir (m / BLOCKSZ) : Nat) : Int), d)
      else if m / BLOCKSZ < DIRBLOCK_PER_INODE + BLOCKSZ / 2 then
        (((data16 (d.blocks inode.indir_block) (m / BLOCKSZ - DIRBLOCK_PER_INODE) : Nat) : Int),
          (disk_read d inode.indir_block).2)
      else ((-1 : Int), d) := by
  unfold offset2block
  have e : Int.tdiv (m : Int) (BLOCKSZ : Int) = ((m / BLOCKSZ : Nat) : Int) := rfl
  simp only [e, Int.toNat_ofNat, Int.toNat_sub, disk_read]
  norm_cast

/-- C3 (offset translation is the two-case lookup): for every inode, disk content and
offset with `0 <= offset < 11 * BLOCKSZ + (BLOCKSZ / 2) * BLOCKSZ`, `offset2block` returns
the value of the reference translation `translate_ref`, and the content of the disk is the
same after the call (the inode is only read). -/
theorem offset2block_eq_translate_ref (d : Disk) (inode : fs_inode) (offset : Int)
    (h0 : 0 ≤ offset)
    (h1 : offset < ((11 * BLOCKSZ + (BLOCKSZ / 2) * BLOCKSZ : Nat) : Int)) :
    (offset2block d inode offset).1 = ((translate_ref d.blocks inode offset.toNat : Nat) : Int) ∧
    (offset2block d inode offset).2.blocks = d.blocks := by
  obtain ⟨m, rfl⟩ := Int.eq_ofNat_of_zero_le h0
  have hm : m / BLOCKSZ < DIRBLOCK_PER_INODE + BLOCKSZ / 2 := by
    have h2 : m < 11 * BLOCKSZ + (BLOCKSZ / 2) * BLOCKSZ := by exact_mod_cast h1
    simp only [blocksz_eq, DIRBLOCK_PER_INODE] at h2 ⊢
    omega
  rw [offset2block_ofNat, Int.toNat_ofNat]
  unfold translate_ref
  by_cases hd : m / BLOCKSZ < DIRBLOCK_PER_INODE
  · have hd2 : m / BLOCKSZ < 11 := hd
    rw [if_pos hd, dif_pos hd2]
    simp only [fs_inode.dir, dif_pos hd2, and_self]
  · have hd2 : ¬ m / BLOCKSZ < 11 := hd
    rw [if_neg hd, if_pos hm, dif_neg hd2]
    simp only [disk_read, DIRBLOCK_PER_INODE, and_self]

/-- Witness of C3: offset 5000 of the sample file lies in its third direct block. -/
theorem offset2block_eq_translate_ref_witness :
    (0 : Int) ≤ 5000 ∧ (5000 : Int) < ((11 * BLOCKSZ + (BLOCKSZ / 2) * BLOCKSZ : Nat) : Int) ∧
    (offset2block sampleMounted.disk sampleInode 5000).1
      = ((translate_ref sampleMounted.disk.blocks sampleInode (5000 : Int).toNat : Nat) : Int) ∧
    (offset2block sampleMounted.disk sampleInode 5000).2.blocks = sampleMounted.disk.blocks :=
  ⟨by decide, by decide,
    offset2block_eq_translate_ref sampleMounted.disk sampleInode 5000 (by decide) (by decide)⟩

/-- C4 (capacity boundary): for every inode, disk content and offset that is not negative,
`offset2block` returns -1 if and only if
`offset >= 11 * BLOCKSZ + (BLOCKSZ / 2) * BLOCKSZ`; at the last offset below that bound the
result is a block number between 0 and 65535, and at the bound it is -1. -/
theorem offset2block_capacity (d : Disk) (inode : fs_inode) (offset : Int) (h0 : 0 ≤ offset) :
    ((offset2block d inode offset).1 = -1 ↔
      ((11 * BLOCKSZ + (BLOCKSZ / 2) * BLOCKSZ : Nat) : Int) ≤ offset) ∧
    (0 ≤ (offset2block d inode ((11 * BLOCKSZ + (BLOCKSZ / 2) * BLOCKSZ : Nat) - 1)).1 ∧
      (offset2block d inode ((11 * BLOCKSZ + (BLOCKSZ / 2) * BLOCKSZ : Nat) - 1)).1 ≤ 65535) ∧
    (offset2block d inode ((11 * BLOCKSZ + (BLOCKSZ / 2) * BLOCKSZ : Nat) : Int)).1 = -1 := by
  refine ⟨?_, ?_, ?_⟩
  · obtain ⟨m, rfl⟩ := Int.eq_ofNat_of_zero_le h0
    rw [offset2block_ofNat]
    have hc : (((11 * BLOCKSZ + (BLOCKSZ / 2) * BLOCKSZ : Nat) : Int) ≤ (m : Int)) ↔
        ¬ m / BLOCKSZ < DIRBLOCK_PER_INODE + BLOCKSZ / 2 := by
      rw [Int.ofNat_le]
      simp only [blocksz_eq, DIRBLOCK_PER_INODE]
      omega
    rw [hc]
    by_cases hd : m / BLOCKSZ < DIRBLOCK_PER_INODE
    · have hi : m / BLOCKSZ < DIRBLOCK_PER_INODE + BLOCKSZ / 2 := by omega
      rw [if_pos hd]
      constructor
      · intro h; exfalso; simp only at h; omega
      · intro h; exact absurd hi h
    · rw [if_neg hd]
      by_cases hi : m / BLOCKSZ < DIRBLOCK_PER_INODE + BLOCKSZ / 2
      · rw [if_pos hi]
        constructor
        · intro h; exfalso; simp only at h; omega
        · intro h; exact absurd hi h
      · rw [if_neg hi]
        exact ⟨fun _ => hi, fun _ => rfl⟩
  · have e : (((11 * BLOCKSZ + (BLOCKSZ / 2) * BLOCKSZ : Nat) : Int) - 1)
        = ((11 * BLOCKSZ + (BLOCKSZ / 2) * BLOCKSZ - 1 : Nat) : Int) := by
      simp only [blocksz_eq]; norm_num
    rw [e, offset2block_ofNat]
    have hd : ¬ (11 * BLOCKSZ + (BLOCKSZ / 2) * BLOCKSZ - 1) / BLOCKSZ < DIRBLOCK_PER_INODE := by
      decide
    have hi : (11 * BLOCKSZ + (BLOCKSZ / 2) * BLOCKSZ - 1) / BLOCKSZ
        < DIRBLOCK_PER_INODE + BLOCKSZ / 2 := by decide
    rw [if_neg hd, if_pos hi]
    have hlt := rd16_lt (d.blocks inode.indir_block)
      (2 * ((11 * BLOCKSZ + (BLOCKSZ / 2) * BLOCKSZ - 1) / BLOCKSZ - DIRBLOCK_PER_INODE))
    simp only [data16]
    omega
  · rw [offset2block_ofNat]
    have hd : ¬ (11 * BLOCKSZ + (BLOCKSZ / 2) * BLOCKSZ) / BLOCKSZ < DIRBLOCK_PER_INODE := by
      decide
    have hi : ¬ (11 * BLOCKSZ + (BLOCKSZ / 2) * BLOCKSZ) / BLOCKSZ
        < DIRBLOCK_PER_INODE + BLOCKSZ / 2 := by decide
    rw [if_neg hd, if_neg hi]

/-- Witness of C4: offset 5000 of the sample file. -/
theorem offset2block_capacity_witness :
    (0 : Int) ≤ 5000 ∧
    ((offset2block sampleMounted.disk sampleInode 5000).1 = -1 ↔
      ((11 * BLOCKSZ + (BLOCKSZ / 2) * BLOCKSZ : Nat) : Int) ≤ 5000) :=
  ⟨by decide, (offset2block_capacity sampleMounted.disk sampleInode 5000 (by decide)).1⟩

/-- C2, the claim as stated fails: with no volume mounted and a device that opens with a
blank block 0, `fs_mount` returns 0, not -1. -/
theorem fs_mount_unformatted_returns_zero :
    sampleUnmounted.rootSB.magic ≠ FS_MAGIC ∧
    0 ≤ (disk_init blankBacking sampleUnmounted.disk "disk" 640).1 ∧
    (fs_block.super ((disk_init blankBacking sampleUnmounted.disk "disk" 640).2.blocks
      SBLOCK)).magic ≠ FS_MAGIC ∧
    (fs_mount blankBacking sampleUnmounted "disk" 640).1 = 0 ∧
    (fs_mount blankBacking sampleUnmounted "disk" 640).1 ≠ -1 := by
  decide

/-- C2 as amended: with no volume mounted and `disk_init` succeeding, for every device
whose block 0 does not carry `FS_MAGIC`, `fs_mount` returns 0 and leaves `rootSB` as it
was, so no volume is mounted. -/
theorem fs_mount_unformatted (env : Backing) (s : FsState) (device : String) (size : Int)
    (hu : s.rootSB.magic ≠ FS_MAGIC)
    (hinit : 0 ≤ (disk_init env s.disk device size).1)
    (hmagic : (fs_block.super ((disk_init env s.disk device size).2.blocks SBLOCK)).magic
      ≠ FS_MAGIC) :
    (fs_mount env s device size).1 = 0 ∧
    (fs_mount env s device size).2.rootSB = s.rootSB ∧
    check_rootSB (fs_mount env s device size).2 = -1 := by
  unfold fs_mount
  have hmagic2 : (fs_block.super
      (disk_read (disk_init env s.disk device size).2 SBLOCK).1).magic ≠ FS_MAGIC := hmagic
  rw [if_neg hu, if_neg (not_lt.mpr hinit), if_pos hmagic2]
  refine ⟨rfl, rfl, ?_⟩
  unfold check_rootSB
  rw [if_pos hu]

/-- Witness of C2 as amended: mounting a blank image. -/
theorem fs_mount_unformatted_witness :
    sampleUnmounted.rootSB.magic ≠ FS_MAGIC ∧
    (fs_mount blankBacking sampleUnmounted "disk" 640).1 = 0 ∧
    (fs_mount blankBacking sampleUnmounted "disk" 640).2.rootSB = sampleUnmounted.rootSB ∧
    check_rootSB (fs_mount blankBacking sampleUnmounted "disk" 640).2 = -1 :=
  ⟨by decide, fs_mount_unformatted blankBacking sampleUnmounted "disk" 640
    (by decide) (by decide) (by decide)⟩

/-- C7 (mount installs the superblock of block 0): with no volume mounted and `disk_init`
succeeding, when block 0 carries `FS_MAGIC` `fs_mount` returns 0, `rootSB` becomes the
superblock stored in block 0 and `check_rootSB` returns 0; when block 0 does not carry
`FS_MAGIC`, `rootSB` is left unchanged and `check_rootSB` returns -1. -/
theorem fs_mount_installs (env : Backing) (s : FsState) (device : String) (size : Int)
    (hu : s.rootSB.magic ≠ FS_MAGIC)
    (hinit : 0 ≤ (disk_init env s.disk device size).1) :
    ((fs_block.super ((disk_init env s.disk device size).2.blocks SBLOCK)).magic = FS_MAGIC →
      (fs_mount env s device size).1 = 0 ∧
      (fs_mount env s device size).2.rootSB
        = fs_block.super ((disk_init env s.disk device size).2.blocks SBLOCK) ∧
      check_rootSB (fs_mount env s device size).2 = 0) ∧
    ((fs_block.super ((disk_init env s.disk device size).2.blocks SBLOCK)).magic ≠ FS_MAGIC →
      (fs_mount env s device size).2.rootSB = s.rootSB ∧
      check_rootSB (fs_mount env s device size).2 = -1) := by
  constructor
  · intro hmagic
    have hmagic2 : ¬ (fs_block.super
        (disk_read (disk_init env s.disk device size).2 SBLOCK).1).magic ≠ FS_MAGIC :=
      fun h => h hmagic
    unfold fs_mount
    rw [if_neg hu, if_neg (not_lt.mpr hinit), if_neg hmagic2]
    refine ⟨rfl, rfl, ?_⟩
    unfold check_rootSB
    rw [if_neg hmagic2]
  · intro hmagic
    have hmagic2 : (fs_block.super
        (disk_read (disk_init env s.disk device size).2 SBLOCK).1).magic ≠ FS_MAGIC := hmagic
    unfold fs_mount
    rw [if_neg hu, if_neg (not_lt.mpr hinit), if_pos hmagic2]
    refine ⟨rfl, ?_⟩
    unfold check_rootSB
    rw [if_pos hu]

/-- Witness of C7: mounting the formatted sample volume installs its superblock. -/
theorem fs_mount_installs_witness :
    sampleUnmounted.rootSB.magic ≠ FS_MAGIC ∧
    0 ≤ (disk_init sampleBacking sampleUnmounted.disk "disk" 640).1 ∧
    (fs_mount sampleBacking sampleUnmounted "disk" 640).1 = 0 ∧
    (fs_mount sampleBacking sampleUnmounted "disk" 640).2.rootSB
      = fs_block.super ((disk_init sampleBacking sampleUnmounted.disk "disk" 640).2.blocks
          SBLOCK) ∧
    check_rootSB (fs_mount sampleBacking sampleUnmounted "disk" 640).2 = 0 :=
  ⟨by decide, by decide,
    (fs_mount_installs sampleBacking sampleUnmounted "disk" 640 (by decide) (by decide)).1
      (by decide)⟩

/-- C8 (a second mount is rejected): whenever `rootSB.magic = FS_MAGIC`, for every device
layer, device name and size `fs_mount` returns -1 and the state is the one before the call:
`rootSB` is unchanged and the block device has received no call. -/
theorem fs_mount_already_mounted (env : Backing) (s : FsState) (device : String) (size : Int)
    (hm : s.rootSB.magic = FS_MAGIC) :
    (fs_mount env s device size).1 = -1 ∧
    (fs_mount env s device size).2.rootSB = s.rootSB ∧
    (fs_mount env s device size).2.disk.calls = s.disk.calls ∧
    (fs_mount env s device size).2 = s := by
  unfold fs_mount
  rw [if_pos hm]
  exact ⟨rfl, rfl, rfl, rfl⟩

/-- Witness of C8: a second mount on the mounted sample volume. -/
theorem fs_mount_already_mounted_witness :
    sampleMounted.rootSB.magic = FS_MAGIC ∧
    (fs_mount sampleBacking sampleMounted "other" 100).1 = -1 ∧
    (fs_mount sampleBacking sampleMounted "other" 100).2.rootSB = sampleMounted.rootSB ∧
    (fs_mount sampleBacking sampleMounted "other" 100).2.disk.calls = sampleMounted.disk.calls ∧
    (fs_mount sampleBacking sampleMounted "other" 100).2 = sampleMounted :=
  ⟨by decide, fs_mount_already_mounted sampleBacking sampleMounted "other" 100 (by decide)⟩

end FS
